import Mathlib

/-!
# Verification of the typescript-deno-plugin enablement core

Shallow embedding of `src/typescript-deno-plugin/src/index.ts`:
the path-ancestry test (`pathStartsWith` with `PARENT_RELATIVE_REGEX`),
the settings store (`projectSettings`, `defaultSettings`, `updateSettings`),
the enablement resolver (`#denoEnabled`, `#fileNameDenoEnabled`), the
interception factory (`callIfDisabled`), the two wrapped project-error
methods, and `onConfigurationChanged`.

The Node `path` module functions the source relies on (`isAbsolute`,
`relative`) are modelled for POSIX paths and for drive-letter-free Win32
paths (the only inputs exercised here); Win32 path routines accept both
`/` and `\` as separators, as Node's do.
-/

namespace DenoPlugin

/-- `process.platform` / `os.platform()` as observed by the plugin:
either `win32` or anything else (modelled as `posix`). -/
inductive Platform where
  | posix
  | win32
deriving DecidableEq, Repr

/-- The separator characters the platform's `path` module recognises.
Node's Win32 path routines treat both `/` and `\` as separators. -/
def sepChars : Platform → List Char
  | .posix => ['/']
  | .win32 => ['/', '\\']

/-- The separator the platform's `path` module emits when joining. -/
def sepString : Platform → String
  | .posix => "/"
  | .win32 => "\\"

/-- `path.isAbsolute` for POSIX paths and drive-letter-free Win32 paths:
the path starts with a separator character. -/
def isAbsolute (p : Platform) (s : String) : Bool :=
  match s.data with
  | [] => false
  | c :: _ => (sepChars p).contains c

/-- Split a path string into segments at every separator character. -/
def splitSegsAux (p : Platform) : List Char → List Char → List String
  | [], acc => [String.mk acc.reverse]
  | c :: rest, acc =>
    if (sepChars p).contains c then
      String.mk acc.reverse :: splitSegsAux p rest []
    else
      splitSegsAux p rest (c :: acc)

def splitSegs (p : Platform) (s : String) : List String :=
  splitSegsAux p s.data []

/-- Path normalization as performed by `path.resolve` on an absolute
path: empty and `.` segments are dropped, `..` pops the previous segment
(and is dropped at the root). -/
def normalizeSegs (segs : List String) : List String :=
  segs.foldl
    (fun acc seg =>
      if seg = "" ∨ seg = "." then acc
      else if seg = ".." then acc.dropLast
      else acc ++ [seg])
    []

/-- `path.resolve` of a single path against the current working
directory `cwd` (itself absolute), returned as a normalized segment
list. -/
def resolveSegs (p : Platform) (cwd s : String) : List String :=
  if isAbsolute p s then normalizeSegs (splitSegs p s)
  else normalizeSegs (splitSegs p (cwd ++ sepString p ++ s))

def commonPrefixLen : List String → List String → Nat
  | a :: as, b :: bs => if a = b then commonPrefixLen as bs + 1 else 0
  | _, _ => 0

/-- `path.relative(fromP, toP)`: both arguments are resolved against
`cwd`, the common segment prefix is stripped, and the remainder of
`fromP` is replaced by `..` segments. -/
def relative (p : Platform) (cwd fromP toP : String) : String :=
  let f := resolveSegs p cwd fromP
  let t := resolveSegs p cwd toP
  let k := commonPrefixLen f t
  String.intercalate (sepString p) (List.replicate (f.length - k) ".." ++ t.drop k)

/-- Does the character list start with `..` followed by a separator or
the end of the string?  One attempted match of `PARENT_RELATIVE_REGEX`
(`/\.\.(?:\/|$)/`, with `[/\\]` on win32) at this position. -/
def startsWithParentSeg (p : Platform) : List Char → Bool
  | '.' :: '.' :: [] => true
  | '.' :: '.' :: c :: _ => (sepChars p).contains c
  | _ => false

/-- `String.prototype.match` with `PARENT_RELATIVE_REGEX`: the regex is
unanchored, so it matches when `..` followed by a separator or
end-of-string occurs at ANY position of the string. -/
def containsParentSeg (p : Platform) : List Char → Bool
  | [] => false
  | c :: rest => startsWithParentSeg p (c :: rest) || containsParentSeg p rest

/-- `pathStartsWith(child, parent)` from the source: false on an
absolute/relative mismatch, otherwise true iff
`path.relative(parent, child)` has no match of `PARENT_RELATIVE_REGEX`.
Total: every input pair yields a definite boolean. -/
def pathStartsWith (p : Platform) (cwd child parent : String) : Bool :=
  if (isAbsolute p child) != (isAbsolute p parent) then false
  else !(containsParentSeg p (relative p cwd parent child).data)

/-! ## Settings data model

TypeScript distinguishes an absent field (`undefined`, skipped by
`Object.assign` and by `??`) from an explicit `null` (copied by
`Object.assign`, skipped by `??`).  A field of type `boolean | null`
that may also be absent is therefore `Option (Option Bool)`:
`none` = absent, `some none` = `null`, `some (some b)` = `b`.
Besides `enable`, one representative plain workspace field (`lint`,
type `boolean`) is kept so that the field-by-field merge of
`Object.assign(defaultSettings, settings.workspace)` is observable. -/

structure WorkspaceSettings where
  enable : Option (Option Bool) := none
  lint : Option Bool := none
deriving DecidableEq, Repr

/-- The mutable module-level `defaultSettings` record (only the fields
the claims exercise); its fields always hold a value. -/
structure DefaultSettings where
  enable : Option Bool
  lint : Bool
deriving DecidableEq, Repr

/-- The literal seed of `defaultSettings`: `enable: null`, `lint: false`. -/
def initialDefaultSettings : DefaultSettings :=
  { enable := none, lint := false }

/-- One `pathFilters` entry: `enabled` is optional in the source
(guarded by `pathFilter?.enabled`), `disabled` is iterated withut a
guard and is therefore required. -/
structure PathFilter where
  workspace : String
  enabled : Option (List String) := none
  disabled : List String := []
deriving DecidableEq, Repr

structure DocumentPrefs where
  enable : Bool
deriving DecidableEq, Repr

/-- A `documents` map entry: `documents[fileName].settings.enable`. -/
structure DocumentEntry where
  settings : DocumentPrefs
deriving DecidableEq, Repr

/-- `PluginSettings` as consumed by the plugin (the fields it reads). -/
structure PluginSettings where
  workspace : Option WorkspaceSettings := none
  hasDenoConfig : Option Bool := none
  pathFilters : Option (List PathFilter) := none
  documents : Option (List (String × DocumentEntry)) := none
deriving DecidableEq, Repr

/-- The module-level mutable state: the `projectSettings` map (an
association list keyed by project name) together with the
`defaultSettings` record. -/
structure Store where
  projectSettings : List (String × PluginSettings)
  defaultSettings : DefaultSettings
deriving DecidableEq, Repr

/-- `projectSettings.get(name)`. -/
def lookupProject (st : Store) (name : String) : Option PluginSettings :=
  (st.projectSettings.find? (fun e => e.1 = name)).map (·.2)

/-- `projectSettings.set(name, s)`: replace the entry if present,
append it otherwise. -/
def mapSet (m : List (String × PluginSettings)) (k : String) (v : PluginSettings) :
    List (String × PluginSettings) :=
  if m.any (fun e => e.1 = k) then
    m.map (fun e => if e.1 = k then (k, v) else e)
  else
    m ++ [(k, v)]

/-- `Object.assign(defaultSettings, settings.workspace)`: when
`workspace` is absent nothing happens; otherwise every present field of
`workspace` overwrites the default's field and absent fields leave it
unchanged. -/
def assignWorkspace (d : DefaultSettings) : Option WorkspaceSettings → DefaultSettings
  | none => d
  | some w => { enable := w.enable.getD d.enable, lint := w.lint.getD d.lint }

/-- `updateSettings(project, settings)` acting on the module state. -/
def updateSettings (st : Store) (name : String) (s : PluginSettings) : Store :=
  { projectSettings := mapSet st.projectSettings name s
    defaultSettings := assignWorkspace st.defaultSettings s.workspace }

/-! ## Enablement resolver -/

/-- `pluginSettings?.workspace?.enable` collapsed through `??`:
`some b` exactly when the project's own `workspace.enable` is
explicitly `true` or `false`. -/
def wsEnable (ps : Option PluginSettings) : Option Bool :=
  ((ps.bind (·.workspace)).bind (·.enable)).bind id

/-- `#denoEnabled()`: `enable = pluginSettings?.workspace?.enable ??
defaultSettings.enable`, `hasDenoConfig = pluginSettings?.hasDenoConfig
?? false`, result `enable ?? hasDenoConfig`. -/
def denoEnabled (st : Store) (name : String) : Bool :=
  let ps := lookupProject st name
  let enable := (wsEnable ps).orElse (fun _ => st.defaultSettings.enable)
  let hasDenoConfig := (ps.bind (·.hasDenoConfig)).getD false
  enable.getD hasDenoConfig

/-- `fileName.replace(/\//g, "\\")`. -/
def replaceSlashes (s : String) : String :=
  String.mk (s.data.map fun c => if c = '/' then '\\' else c)

/-- `settings?.documents?.[fileName]?.settings.enable`. -/
def lookupDoc (docs : Option (List (String × DocumentEntry))) (fileName : String) :
    Option Bool :=
  docs.bind fun l => (l.find? (fun e => e.1 = fileName)).map (·.2.settings.enable)

/-- `#fileNameDenoEnabled(fileName)`: on win32 the queried file name
has every `/` replaced by `\` first; the filter paths and `documents`
keys are used exactly as provided. -/
def fileNameDenoEnabled (p : Platform) (cwd : String) (st : Store)
    (name fileName0 : String) : Bool :=
  let fileName := if p = .win32 then replaceSlashes fileName0 else fileName0
  let settings := lookupProject st name
  let fallback :=
    (lookupDoc (settings.bind (·.documents)) fileName).getD (denoEnabled st name)
  match settings.bind (·.pathFilters) with
  | none => fallback
  | some filters =>
    match filters.find? (fun f => pathStartsWith p cwd fileName f.workspace) with
    | none => fallback
    | some pf =>
      if pf.disabled.any (fun q => pathStartsWith p cwd fileName q) then false
      else
        match pf.enabled with
        | some en => en.any (fun q => pathStartsWith p cwd fileName q)
        | none => fallback

/-! ## Interception factory -/

/-- The `emptyReturn` argument of `callIfDisabled` as classified by the
wrapper's own analysis: a JS array (always `[]` at the call sites; the
wrapper rebuilds a fresh `[]` instead of returning it), a zero-argument
producer, or a plain value.  `array e` carries the model value of the
empty array; instance identity is modelled separately
(`callIfDisabledAlloc`). -/
inductive EmptyReturn (R : Type) where
  | array (e : R)
  | func (f : Unit → R)
  | value (v : R)

/-- The value the wrapper substitutes when it does not delegate:
`Array.isArray(emptyReturn) ? [] : typeof emptyReturn === "function" ?
emptyReturn() : emptyReturn`. -/
def mkNeutral {R : Type} : EmptyReturn R → R
  | .array e => e
  | .func f => f ()
  | .value v => v

/-- The enablement consulted by a wrapped operation: file-scoped via
`args[fileNameArg] as string` when an argument index was declared,
project-global otherwise.  (`args[i]` out of range is outside the
wrapper's contract; it is modelled as the empty file name.) -/
def resolveEnabled {A : Type} (p : Platform) (cwd : String) (st : Store) (name : String)
    (fileOf : A → String) (fileNameArg : Option Nat) (args : List A) : Bool :=
  match fileNameArg with
  | some i => fileNameDenoEnabled p cwd st name (((args.get? i).map fileOf).getD "")
  | none => denoEnabled st name

/-- One wrapped operation produced by `callIfDisabled(fn, fileNameArg,
emptyReturn)`, applied to an argument list: when the resolved (Deno)
enablement is true it returns the neutral value, otherwise it calls the
underlying language-service method with the same arguments. -/
def callIfDisabled {A R : Type} (p : Platform) (cwd : String) (st : Store) (name : String)
    (fileOf : A → String) (fileNameArg : Option Nat) (emptyReturn : EmptyReturn R)
    (target : List A → R) (args : List A) : R :=
  if resolveEnabled p cwd st name fileOf fileNameArg args then
    mkNeutral emptyReturn
  else
    target args

/-- A JS array with its object identity made explicit. -/
structure JsArrayInst (α : Type) where
  id : Nat
  elems : List α
deriving DecidableEq, Repr

/-- The wrapper body for an array-typed `emptyReturn`, instrumented
with an allocation counter `ctr` (the id the next `[]` literal
receives): the enabled branch allocates a brand-new empty array, the
disabled branch runs the underlying method (which may itself
allocate). -/
def callIfDisabledAlloc {α : Type} (enabled : Bool)
    (target : Nat → JsArrayInst α × Nat) (ctr : Nat) : JsArrayInst α × Nat :=
  if enabled then (⟨ctr, []⟩, ctr + 1) else target ctr

/-! ## Wrapped project-error methods and the configuration protocol -/

/-- The replacement installed on `project.getGlobalProjectErrors`:
`#denoEnabled() ? [] : original()`. -/
def getGlobalProjectErrors {D : Type} (st : Store) (name : String)
    (original : Unit → List D) : List D :=
  if denoEnabled st name then [] else original ()

/-- The replacement installed on `project.getAllProjectErrors`:
`#denoEnabled() ? [] : original()`. -/
def getAllProjectErrors {D : Type} (st : Store) (name : String)
    (original : Unit → List D) : List D :=
  if denoEnabled st name then [] else original ()

/-- Plugin-visible state for the configuration protocol: the settings
store plus the number of `refreshDiagnostics` signals sent to the
host's project object. -/
structure PluginState where
  store : Store
  refreshCount : Nat
deriving DecidableEq, Repr

/-- `onConfigurationChanged(settings)`: updates the settings store the
same way `updateSettings` does, then synchronously issues exactly one
`refreshDiagnostics` signal, unconditionally. -/
def onConfigurationChanged (ps : PluginState) (name : String) (s : PluginSettings) :
    PluginState :=
  { store := updateSettings ps.store name s
    refreshCount := ps.refreshCount + 1 }

/-! ## Spec-side formulations (for refinement claims) -/

/-- The verdict one matched path filter gives about a file, following
the spec's words: "return false if `filePath` is under any of that
filter's `disabled` paths; else, if the filter has an `enabled` list,
return true iff `filePath` is under one of those paths; else fall
through" (`none` = fall through). -/
def filterAnswer (underFn : String → Bool) (pf : PathFilter) : Option Bool :=
  if pf.disabled.any underFn then some false
  else
    match pf.enabled with
    | some en => some (en.any underFn)
    | none => none

/-- `isFileEnabled` written from the spec's words: the first filter
whose workspace is an ancestor of the file gives an optional verdict;
when absent, the per-document override applies if present, else the
global enablement. -/
def isFileEnabled_spec (p : Platform) (cwd : String) (st : Store)
    (name fileName0 : String) : Bool :=
  let fileName := if p = .win32 then replaceSlashes fileName0 else fileName0
  let settings := lookupProject st name
  let under := fun q => pathStartsWith p cwd fileName q
  let fromFilter : Option Bool :=
    (settings.bind (·.pathFilters)).bind fun filters =>
      (filters.find? (fun f => under f.workspace)).bind (filterAnswer under)
  fromFilter.getD ((lookupDoc (settings.bind (·.documents)) fileName).getD (denoEnabled st name))

/-- `isGloballyEnabled` written from the (amended) spec's words: the
project's own `workspace.enable` when explicitly set; otherwise the
process-wide default's `enable` when it holds a boolean; otherwise the
project's `hasDenoConfig` flag; otherwise false. -/
def isGloballyEnabled_spec (st : Store) (name : String) : Bool :=
  match wsEnable (lookupProject st name) with
  | some b => b
  | none =>
    match st.defaultSettings.enable with
    | some b => b
    | none => ((lookupProject st name).bind (·.hasDenoConfig)).getD false

/-! ## Concrete stores used in examples, witnesses and counterexamples -/

/-- A project whose `workspace.enable` is explicitly `true`. -/
def stOn : Store :=
  { projectSettings := [("proj", { workspace := some { enable := some (some true) } })]
    defaultSettings := initialDefaultSettings }

/-- An empty store: no project settings, pristine defaults, hence the
global (Deno) enablement resolves to `false`. -/
def stOff : Store :=
  { projectSettings := []
    defaultSettings := initialDefaultSettings }

/-- The store of the spec's worked filter example: one project `p`
with the single filter
`{workspace:"/ws", enabled:["/ws/src"], disabled:["/ws/src/gen"]}`. -/
def stFilter : Store :=
  { projectSettings := [("p",
      { pathFilters := some [{ workspace := "/ws", enabled := some ["/ws/src"],
                               disabled := ["/ws/src/gen"] }] })]
    defaultSettings := initialDefaultSettings }

/-- A project whose `workspace.enable` is explicitly `null` and whose
`hasDenoConfig` is `true`, against pristine defaults. -/
def stConfig : Store :=
  { projectSettings := [("p",
      { workspace := some { enable := some none }, hasDenoConfig := some true })]
    defaultSettings := initialDefaultSettings }

/-- Same project, but the process-wide default's `enable` has been
merged to `false` (as happens after any project reports
`workspace.enable = false`). -/
def stConfigMergedDefault : Store :=
  { projectSettings := [("p",
      { workspace := some { enable := some none }, hasDenoConfig := some true })]
    defaultSettings := { enable := some false, lint := false } }

/-- A project whose only filter is written with POSIX separators and
whose global enablement is otherwise `false`. -/
def stFilterWin : Store :=
  { projectSettings := [("p",
      { pathFilters := some [{ workspace := "/ws", enabled := some ["/ws/src"],
                               disabled := [] }] })]
    defaultSettings := initialDefaultSettings }

/-! ## Helper lemmas -/

theorem commonPrefixLen_self (l : List String) : commonPrefixLen l l = l.length := by
  induction l with
  | nil => rfl
  | cons a t ih => simp [commonPrefixLen, ih]

theorem relative_self (p : Platform) (cwd s : String) : relative p cwd s s = "" := by
  simp only [relative, commonPrefixLen_self, Nat.sub_self, List.replicate_zero,
    List.drop_length, List.nil_append]
  rfl

theorem pathStartsWith_self (p : Platform) (cwd s : String) :
    pathStartsWith p cwd s s = true := by
  simp [pathStartsWith, relative_self, containsParentSeg]

/-! ## Claims about the path-ancestry test -/

/-- C5 (amended): for same-kind paths, `pathStartsWith child parent`
returns false exactly when the relative path from `parent` to `child`
CONTAINS (at any position, the regex being unanchored — not only at the
beginning) a `..` followed by a separator or end-of-string; moreover
`pathStartsWith p p` is true for every path `p`, `/a/b` is under `/a`,
and `/a` is not under `/a/b`. -/
theorem C5_pathStartsWith_traversal :
    (∀ cwd child parent : String,
      isAbsolute .posix child = isAbsolute .posix parent →
        (pathStartsWith .posix cwd child parent = false ↔
          containsParentSeg .posix (relative .posix cwd parent child).data = true))
    ∧ (∀ cwd s : String, pathStartsWith .posix cwd s s = true)
    ∧ pathStartsWith .posix "/" "/a/b" "/a" = true
    ∧ pathStartsWith .posix "/" "/a" "/a/b" = false := by
  refine ⟨fun cwd child parent h => ?_, fun cwd s => pathStartsWith_self _ cwd s, rfl, rfl⟩
  simp [pathStartsWith, h]

/-- C5 witness: the biconditional applied at a concrete same-kind pair. -/
theorem C5_pathStartsWith_traversal_witness :
    pathStartsWith .posix "/" "/a" "/a/b" = false ↔
      containsParentSeg .posix (relative .posix "/" "/a/b" "/a").data = true :=
  C5_pathStartsWith_traversal.1 "/" "/a" "/a/b" rfl

/-- C5 counterexample: the claim says `pathStartsWith` returns false
exactly when the relative path BEGINS with a traversal segment, but for
child `/a/foo..` and parent `/a` the relative path is `foo..`, which
does not begin with one, and `pathStartsWith` still returns false (the
regex is unanchored and matches the trailing `..`). -/
theorem C5_counterexample :
    pathStartsWith .posix "/" "/a/foo.." "/a" = false
    ∧ relative .posix "/" "/a" "/a/foo.." = "foo.."
    ∧ startsWithParentSeg .posix "foo..".data = false := by
  exact ⟨rfl, rfl, rfl⟩

/-- C6: when exactly one of `child`/`parent` is absolute,
`pathStartsWith` returns the definite value false; the function is
total, so no input pair is rejected with an error. -/
theorem C6_pathStartsWith_mixed (p : Platform) (cwd child parent : String)
    (h : isAbsolute p child ≠ isAbsolute p parent) :
    pathStartsWith p cwd child parent = false := by
  have hb : (isAbsolute p child != isAbsolute p parent) = true := by
    simpa [bne_iff_ne] using h
  simp [pathStartsWith, hb]

/-- C6 witness: an absolute child against a relative parent. -/
theorem C6_pathStartsWith_mixed_witness :
    pathStartsWith .posix "/" "/a/b" "rel" = false :=
  C6_pathStartsWith_mixed .posix "/" "/a/b" "rel" (by decide)

/-! ## Claims about the enablement resolver -/

/-- C3: `#fileNameDenoEnabled` agrees everywhere with the spec's
formulation (first ancestor filter; its `disabled` paths win; an
`enabled` list, when present, is authoritative; otherwise the
per-document override, then the global enablement), and on the worked
example filter `/ws/src/gen/x.ts` is disabled, `/ws/src/app.ts` is
enabled, and `/ws/other.ts` is disabled. -/
theorem C3_fileNameDenoEnabled_spec :
    (∀ (p : Platform) (cwd : String) (st : Store) (name f : String),
      fileNameDenoEnabled p cwd st name f = isFileEnabled_spec p cwd st name f)
    ∧ fileNameDenoEnabled .posix "/" stFilter "p" "/ws/src/gen/x.ts" = false
    ∧ fileNameDenoEnabled .posix "/" stFilter "p" "/ws/src/app.ts" = true
    ∧ fileNameDenoEnabled .posix "/" stFilter "p" "/ws/other.ts" = false := by
  refine ⟨fun p cwd st name f => ?_, rfl, rfl, rfl⟩
  simp only [fileNameDenoEnabled, isFileEnabled_spec, filterAnswer]
  rcases h1 : (lookupProject st name).bind (fun a => a.pathFilters) with _ | filters
  · simp [h1]
  · simp only [h1, Option.bind]
    rcases h2 : filters.find? (fun g =>
        pathStartsWith p cwd (if p = Platform.win32 then replaceSlashes f else f) g.workspace)
      with _ | pf
    · simp [h2]
    · simp only [h2]
      cases h3 : pf.disabled.any (fun q =>
          pathStartsWith p cwd (if p = Platform.win32 then replaceSlashes f else f) q)
      · rcases h4 : pf.enabled with _ | en <;> simp [h3, h4]
      · simp [h3]

/-- C4 (amended): the project-global enablement equals the project's
`workspace.enable` when explicitly set; otherwise the process-wide
default's `enable` when that holds a boolean (the code consults
`defaultSettings.enable` BEFORE `hasDenoConfig`); otherwise
`hasDenoConfig` (`false` when absent).  The claim's particular instance
(`enable = null`, `hasDenoConfig = true` giving `true`) holds when the
default's `enable` is unset, as it is initially. -/
theorem C4_denoEnabled_spec :
    (∀ (st : Store) (name : String), denoEnabled st name = isGloballyEnabled_spec st name)
    ∧ denoEnabled stConfig "p" = true := by
  refine ⟨fun st name => ?_, rfl⟩
  simp only [denoEnabled, isGloballyEnabled_spec]
  rcases h1 : wsEnable (lookupProject st name) with _ | b
  · rcases h2 : st.defaultSettings.enable with _ | b2 <;>
      simp [h1, h2, Option.orElse]
  · simp [h1, Option.orElse]

/-- C4 counterexample: a store in which the project's
`workspace.enable` is explicitly `null`, `hasDenoConfig` is `true`, and
there is neither a path filter nor a per-document override — yet the
global enablement is `false`, because the process-wide default's
`enable` (merged to `false` by some earlier project) is consulted
before `hasDenoConfig`; the claim predicts `true`. -/
theorem C4_counterexample :
    wsEnable (lookupProject stConfigMergedDefault "p") = none
    ∧ (lookupProject stConfigMergedDefault "p").bind (fun s => s.hasDenoConfig) = some true
    ∧ (lookupProject stConfigMergedDefault "p").bind (fun s => s.pathFilters) = none
    ∧ (lookupProject stConfigMergedDefault "p").bind (fun s => s.documents) = none
    ∧ denoEnabled stConfigMergedDefault "p" = false :=
  ⟨rfl, rfl, rfl, rfl, rfl⟩


/-! ## Claims about the interception factory -/

/-- C1 (amended): the wrapper "mutes" the language service when Deno is
enabled — the polarity is the inverse of the claim's.  If the resolved
enablement (file-scoped via the declared argument index, project-global
otherwise) is TRUE, the wrapped operation returns the declared neutral
result without invoking the underlying capability (the result is the
same for every target); if it is FALSE, it invokes the underlying
capability with exactly the given arguments and returns that call's
result verbatim. -/
theorem C1_callIfDisabled_dispatch {A R : Type} (p : Platform) (cwd : String) (st : Store)
    (name : String) (fileOf : A → String) (fna : Option Nat) (er : EmptyReturn R)
    (target : List A → R) (args : List A) :
    (resolveEnabled p cwd st name fileOf fna args = true →
      ∀ target2 : List A → R,
        callIfDisabled p cwd st name fileOf fna er target2 args = mkNeutral er)
    ∧ (resolveEnabled p cwd st name fileOf fna args = false →
      callIfDisabled p cwd st name fileOf fna er target args = target args) := by
  constructor
  · intro h target2
    simp [callIfDisabled, h]
  · intro h
    simp [callIfDisabled, h]

/-- C1 witness: with `workspace.enable = true` the wrapped operation
returns the neutral value 7; with an empty store it delegates and
returns the target's 9. -/
theorem C1_callIfDisabled_dispatch_witness :
    callIfDisabled .posix "/" stOn "proj" (fun s : String => s) none
      (EmptyReturn.value (7 : Nat)) (fun _ => 9) [] = 7
    ∧ callIfDisabled .posix "/" stOff "proj" (fun s : String => s) none
      (EmptyReturn.value (7 : Nat)) (fun _ => 9) [] = 9 :=
  ⟨(C1_callIfDisabled_dispatch .posix "/" stOn "proj" (fun s => s) none
      (EmptyReturn.value 7) (fun _ => 9) []).1 rfl (fun _ => 9),
   (C1_callIfDisabled_dispatch .posix "/" stOff "proj" (fun s => s) none
      (EmptyReturn.value 7) (fun _ => 9) []).2 rfl⟩

/-- C1 counterexample: with the empty store the resolver yields false,
yet the wrapped operation invokes the underlying capability and returns
its result 9, not the neutral 7 the claim requires. -/
theorem C1_counterexample :
    ¬ (resolveEnabled .posix "/" stOff "proj" (fun s : String => s) none
          ([] : List String) = false →
        callIfDisabled .posix "/" stOff "proj" (fun s : String => s) none
          (EmptyReturn.value (7 : Nat)) (fun _ => 9) [] = 7) :=
  fun h => absurd (h rfl) (by decide)

/-- C2 (amended): the two wrapped project-error methods return an empty
list when the project-global (Deno) enablement is TRUE, and delegate to
the original implementation when it is FALSE — the inverse of the
claim's polarity. -/
theorem C2_projectErrors_dispatch (D : Type) (st : Store) (name : String)
    (orig origAll : Unit → List D) :
    (denoEnabled st name = true →
      getGlobalProjectErrors st name orig = []
      ∧ getAllProjectErrors st name origAll = [])
    ∧ (denoEnabled st name = false →
      getGlobalProjectErrors st name orig = orig ()
      ∧ getAllProjectErrors st name origAll = origAll ()) := by
  constructor <;> intro h <;>
    simp [getGlobalProjectErrors, getAllProjectErrors, h]

/-- C2 witness: both methods at an enabled and at a disabled store. -/
theorem C2_projectErrors_dispatch_witness :
    (getGlobalProjectErrors stOn "proj" (fun _ => [3]) = ([] : List Nat)
     ∧ getAllProjectErrors stOn "proj" (fun _ => [4]) = ([] : List Nat))
    ∧ (getGlobalProjectErrors stOff "proj" (fun _ => [3]) = [3]
     ∧ getAllProjectErrors stOff "proj" (fun _ => [4]) = [4]) :=
  ⟨(C2_projectErrors_dispatch Nat stOn "proj" (fun _ => [3]) (fun _ => [4])).1 rfl,
   (C2_projectErrors_dispatch Nat stOff "proj" (fun _ => [3]) (fun _ => [4])).2 rfl⟩

/-- C2 counterexample: with the empty store the global enablement is
false, yet `getGlobalProjectErrors` delegates to the original (giving
`[3]`) instead of returning the empty list the claim requires. -/
theorem C2_counterexample :
    ¬ (denoEnabled stOff "proj" = false →
        getGlobalProjectErrors stOff "proj" (fun _ => [(3 : Nat)]) = []) :=
  fun h => absurd (h rfl) (by decide)

/-- C7 (amended): while the resolved enablement is TRUE (the service is
muted) — not FALSE as the claim states — two successive calls of a
wrapped operation whose neutral result is an empty array return two
distinct array instances, both empty. -/
theorem C7_freshEmptyArray {α : Type} (st : Store) (name : String)
    (target : Nat → JsArrayInst α × Nat) (ctr : Nat)
    (h : denoEnabled st name = true) :
    (callIfDisabledAlloc (denoEnabled st name) target ctr).1.elems = []
    ∧ (callIfDisabledAlloc (denoEnabled st name) target
        ((callIfDisabledAlloc (denoEnabled st name) target ctr).2)).1.elems = []
    ∧ (callIfDisabledAlloc (denoEnabled st name) target ctr).1.id ≠
      (callIfDisabledAlloc (denoEnabled st name) target
        ((callIfDisabledAlloc (denoEnabled st name) target ctr).2)).1.id := by
  refine ⟨?_, ?_, ?_⟩ <;> simp [callIfDisabledAlloc, h]

/-- C7 witness: the amended statement at the enabled store with a
target that would return a shared non-empty instance. -/
theorem C7_freshEmptyArray_witness :
    (callIfDisabledAlloc (denoEnabled stOn "proj")
        (fun n => (⟨0, [0]⟩, n)) 0).1.elems = ([] : List Nat)
    ∧ (callIfDisabledAlloc (denoEnabled stOn "proj") (fun n => (⟨0, [0]⟩, n))
        ((callIfDisabledAlloc (denoEnabled stOn "proj") (fun n => (⟨0, [0]⟩, n)) 0).2)).1.elems = []
    ∧ (callIfDisabledAlloc (denoEnabled stOn "proj") (fun n => (⟨0, [0]⟩, n)) 0).1.id ≠
      (callIfDisabledAlloc (denoEnabled stOn "proj") (fun n => (⟨0, [0]⟩, n))
        ((callIfDisabledAlloc (denoEnabled stOn "proj") (fun n => (⟨0, [0]⟩, n)) 0).2)).1.id :=
  C7_freshEmptyArray stOn "proj" (fun n => (⟨0, [0]⟩, n)) 0 rfl

/-- C7 counterexample: while the enablement resolves to FALSE the
wrapper delegates, and a target that hands back one shared, non-empty
array instance makes both calls return the same instance — the claim's
"two distinct empty instances while disabled" fails. -/
theorem C7_counterexample :
    denoEnabled stOff "proj" = false
    ∧ (callIfDisabledAlloc (denoEnabled stOff "proj")
        (fun n => (⟨7, [1]⟩, n)) 0).1.id =
      (callIfDisabledAlloc (denoEnabled stOff "proj") (fun n => (⟨7, [1]⟩, n))
        ((callIfDisabledAlloc (denoEnabled stOff "proj") (fun n => (⟨7, [1]⟩, n)) 0).2)).1.id
    ∧ (callIfDisabledAlloc (denoEnabled stOff "proj")
        (fun n => (⟨7, [(1 : Nat)]⟩, n)) 0).1.elems ≠ [] :=
  ⟨rfl, rfl, by decide⟩


/-! ## Claims about the configuration update protocol -/

theorem find?_map_replace (k : String) (v : PluginSettings) :
    ∀ m : List (String × PluginSettings), m.any (fun e => e.1 = k) = true →
      (m.map (fun e => if e.1 = k then (k, v) else e)).find? (fun e => e.1 = k) = some (k, v) := by
  intro m
  induction m with
  | nil => intro h; simp at h
  | cons e t ih =>
    intro h
    by_cases he : e.1 = k
    · simp [he]
    · have ht : t.any (fun e => e.1 = k) = true := by
        simpa [List.any_cons, he] using h
      simp [he, ih ht]

theorem find?_append_single (k : String) (v : PluginSettings) :
    ∀ m : List (String × PluginSettings), m.any (fun e => e.1 = k) = false →
      (m ++ [(k, v)]).find? (fun e => e.1 = k) = some (k, v) := by
  intro m
  induction m with
  | nil => simp
  | cons e t ih =>
    intro h
    have he : ¬(e.1 = k) := by
      intro hh
      simp [List.any_cons, hh] at h
    have ht : t.any (fun e => e.1 = k) = false := by
      simpa [List.any_cons, he] using h
    simp only [List.cons_append]
    rw [List.find?_cons_of_neg _ (by simpa using he)]
    exact ih ht

theorem find?_map_ne (k : String) (v : PluginSettings) (q : String) (hq : ¬(q = k)) :
    ∀ m : List (String × PluginSettings),
      (m.map (fun e => if e.1 = k then (k, v) else e)).find? (fun e => e.1 = q) =
        m.find? (fun e => e.1 = q) := by
  intro m
  induction m with
  | nil => rfl
  | cons e t ih =>
    by_cases he : e.1 = k
    · have h2 : ¬(e.1 = q) := by rw [he]; exact fun hh => hq hh.symm
      simp only [List.map_cons, if_pos he]
      rw [List.find?_cons_of_neg _ (by simpa using fun hh : k = q => hq hh.symm),
        List.find?_cons_of_neg _ (by simpa using h2)]
      exact ih
    · simp only [List.map_cons, if_neg he]
      by_cases he2 : e.1 = q
      · rw [List.find?_cons_of_pos _ (by simpa using he2),
          List.find?_cons_of_pos _ (by simpa using he2)]
      · rw [List.find?_cons_of_neg _ (by simpa using he2),
          List.find?_cons_of_neg _ (by simpa using he2)]
        exact ih

theorem lookupProject_update_self (st : Store) (name : String) (s : PluginSettings) :
    lookupProject (updateSettings st name s) name = some s := by
  unfold lookupProject updateSettings mapSet
  by_cases h : st.projectSettings.any (fun e => e.1 = name) = true
  · simp only [h, if_true, find?_map_replace name s _ h, Option.map]
  · have h2 : st.projectSettings.any (fun e => e.1 = name) = false :=
      Bool.eq_false_iff.mpr h
    simp only [h2, Bool.false_eq_true, if_false,
      find?_append_single name s _ h2, Option.map]

theorem lookupProject_update_ne (st : Store) (name : String) (s : PluginSettings)
    (other : String) (h : ¬(other = name)) :
    lookupProject (updateSettings st name s) other = lookupProject st other := by
  unfold lookupProject updateSettings mapSet
  by_cases ha : st.projectSettings.any (fun e => e.1 = name) = true
  · simp only [ha, if_true, find?_map_ne name s other h]
  · have h2 : st.projectSettings.any (fun e => e.1 = name) = false :=
      Bool.eq_false_iff.mpr ha
    simp only [h2, Bool.false_eq_true, if_false, List.find?_append]
    have hno : List.find? (fun e => decide (e.1 = other)) [(name, s)] = none := by
      rw [List.find?_cons_of_neg _ (by simpa using fun hh : name = other => h hh.symm)]
      rfl
    rw [hno]
    cases st.projectSettings.find? (fun e => decide (e.1 = other)) <;> rfl

/-- C8: `updateSettings(project, settings)` replaces the project's
entry wholesale (other projects' entries are untouched) and merges
`settings.workspace` into the process-wide default field by field —
every present field overwrites, every absent field is left unchanged —
and a global-enablement query issued immediately afterwards observes
the just-written `workspace.enable` value. -/
theorem C8_updateSettings_effects (st : Store) (name : String) (s : PluginSettings) :
    lookupProject (updateSettings st name s) name = some s
    ∧ (∀ other, ¬(other = name) →
        lookupProject (updateSettings st name s) other = lookupProject st other)
    ∧ (s.workspace = none →
        (updateSettings st name s).defaultSettings = st.defaultSettings)
    ∧ (∀ w, s.workspace = some w →
        ((w.enable = none →
            (updateSettings st name s).defaultSettings.enable = st.defaultSettings.enable)
         ∧ (∀ v, w.enable = some v →
            (updateSettings st name s).defaultSettings.enable = v)
         ∧ (w.lint = none →
            (updateSettings st name s).defaultSettings.lint = st.defaultSettings.lint)
         ∧ (∀ b, w.lint = some b →
            (updateSettings st name s).defaultSettings.lint = b)))
    ∧ (∀ b, wsEnable (some s) = some b →
        denoEnabled (updateSettings st name s) name = b) := by
  refine ⟨lookupProject_update_self st name s,
    fun other h => lookupProject_update_ne st name s other h,
    fun hw => ?_, fun w hw => ?_, fun b hb => ?_⟩
  · simp [updateSettings, assignWorkspace, hw]
  · refine ⟨fun hv => ?_, fun v hv => ?_, fun hl => ?_, fun bb hl => ?_⟩
    · simp [updateSettings, assignWorkspace, hw, hv]
    · simp [updateSettings, assignWorkspace, hw, hv]
    · simp [updateSettings, assignWorkspace, hw, hl]
    · simp [updateSettings, assignWorkspace, hw, hl]
  · simp [denoEnabled, lookupProject_update_self st name s, hb, Option.orElse]

/-- C8 witness: writing `workspace.enable = true` into the empty store
is immediately visible to the lookup and to the global-enablement
query. -/
theorem C8_updateSettings_effects_witness :
    lookupProject (updateSettings stOff "p"
        { workspace := some { enable := some (some true) } }) "p"
      = some { workspace := some { enable := some (some true) } }
    ∧ denoEnabled (updateSettings stOff "p"
        { workspace := some { enable := some (some true) } }) "p" = true :=
  ⟨(C8_updateSettings_effects stOff "p" _).1,
   (C8_updateSettings_effects stOff "p"
      { workspace := some { enable := some (some true) } }).2.2.2.2 true rfl⟩

/-- C9: `onConfigurationChanged(settings)` performs exactly the
settings-store update of `updateSettings` and then issues exactly one
synchronous refresh signal, unconditionally — in particular also when
`settings` equals the previously stored value (no equality check is
made). -/
theorem C9_onConfigurationChanged (ps : PluginState) (name : String) (s : PluginSettings) :
    (onConfigurationChanged ps name s).store = updateSettings ps.store name s
    ∧ (onConfigurationChanged ps name s).refreshCount = ps.refreshCount + 1 :=
  ⟨rfl, rfl⟩

/-! ## Claim about win32 separator handling -/

/-- C10 (amended): on win32 only the queried file name has its `/`
replaced by `\`; the filter paths and `documents` keys are compared as
provided.  Hence a `documents` key containing a `/` can never match any
queried file name (the replaced name contains no `/` at all) — but a
`pathFilters` path written with POSIX separators CAN still match,
because the win32 path routines treat both `/` and `\` as separators:
the worked example is a POSIX-written filter enabling a slash-bearing
file name on win32. -/
theorem C10_win32_separator_handling :
    (∀ fn : String, '/' ∉ (replaceSlashes fn).data)
    ∧ (∀ fn k : String, '/' ∈ k.data → replaceSlashes fn ≠ k)
    ∧ fileNameDenoEnabled .win32 "/" stFilterWin "p" "/ws/src/app.ts" = true := by
  have h1 : ∀ fn : String, '/' ∉ (replaceSlashes fn).data := by
    intro fn hmem
    simp only [replaceSlashes] at hmem
    rcases List.mem_map.mp hmem with ⟨c, _, hc⟩
    by_cases h : c = '/'
    · rw [if_pos h] at hc
      exact absurd hc (by decide)
    · rw [if_neg h] at hc
      exact h hc
  refine ⟨h1, fun fn k hk heq => ?_, rfl⟩
  rw [← heq] at hk
  exact h1 fn hk

/-- C10 witness: a slash-bearing key never equals a replaced file
name, at a concrete input. -/
theorem C10_win32_separator_handling_witness :
    replaceSlashes "/ws/x" ≠ "/ws/x" :=
  C10_win32_separator_handling.2.1 "/ws/x" "/ws/x" (by decide)

/-- C10 counterexample: the file name `/ws/src/app.ts` contains `/`,
the project's only filter is written entirely with POSIX separators,
and the project is otherwise globally disabled; the claim therefore
predicts no filter match and a resolution of false, but the code
resolves the file to enabled — the POSIX-written `workspace` and
`enabled` paths do match on win32. -/
theorem C10_counterexample :
    denoEnabled stFilterWin "p" = false
    ∧ fileNameDenoEnabled .win32 "/" stFilterWin "p" "/ws/src/app.ts" = true :=
  ⟨rfl, rfl⟩

end DenoPlugin
